import Mathlib

/-!
# Verification of the cudf initialization and configuration layer

This file shallowly embeds the allocator-coordination and option-registry
substrate wired together by `python/cudf/cudf/__init__.py`:

* the Option Registry (`get_option` / `setOption` / `option_context`),
* the Device Memory Manager with pool generations and reinitialization hooks,
* the allocator-adapter bindings shared by distinct client subsystems,
* the module-initialization sequence of `__init__.py` itself (ordering of
  `_setup_numba`, `validate_setup`, runtime import, adapter installation,
  hook registration, `__version__` and `__all__`).

Only `__init__.py` is available as source; the registry, manager and gate
implementations live behind it, so those operations are modelled from the
spec and marked as such in their doc comments.  The initialization sequence,
`__all__` and `__version__` are transcribed from the source directly.
-/

namespace Cudf

/-! ## Option registry -/

/-- Values stored in the option registry (typed scalars). -/
inductive OptValue
  | intVal (i : Int)
  | strVal (s : String)
  | boolVal (b : Bool)
  | noneVal
deriving DecidableEq, Repr

/-- Errors raised by the option registry. -/
inductive OptErr
  | unknownOption (name : String)
  | validationError (name : String)
deriving DecidableEq, Repr

/-- Modelled from the spec: an `OptionEntry` is (name ↦ value, validator
predicate over candidate values, default, description); the name is the key
of the registry mapping. -/
structure OptionEntry where
  value : OptValue
  defaultValue : OptValue
  validator : OptValue → Bool
  description : String

/-- Modelled from the spec: the Option Registry is a mapping from dotted
option names to validated entries (`cudf.options` is not under the analyzed
source surface). -/
def Registry : Type := String → Option OptionEntry

/-- Modelled from the spec: `get(name)` fails with `UnknownOption` if `name`
is not registered, otherwise returns the stored value. -/
def get_option (reg : Registry) (name : String) : Except OptErr OptValue :=
  match reg name with
  | some e => Except.ok e.value
  | none => Except.error (OptErr.unknownOption name)

/-- Modelled from the spec: `set(name, value)` fails with `UnknownOption` on
an unregistered name and with `ValidationError` if `value` fails the entry's
validator; otherwise it replaces the stored value. -/
def setOption (reg : Registry) (name : String) (v : OptValue) :
    Except OptErr Registry :=
  match reg name with
  | some e =>
      if e.validator v then
        Except.ok (fun m => if m = name then some { e with value := v } else reg m)
      else Except.error (OptErr.validationError name)
  | none => Except.error (OptErr.unknownOption name)

/-- State-passing form of `setOption`: on failure the registry is returned
unchanged together with the surfaced error. -/
def setOptionState (reg : Registry) (name : String) (v : OptValue) :
    Registry × Option OptErr :=
  match setOption reg name v with
  | Except.ok reg1 => (reg1, none)
  | Except.error e => (reg, some e)

/-- Validator requiring a non-negative integer (the spec's
`display.max_rows` scenario). -/
def nonNegIntValidator : OptValue → Bool
  | OptValue.intVal i => decide (0 ≤ i)
  | _ => false

/-- Concrete registry entry for `display.max_rows` used in witnesses. -/
def maxRowsEntry : OptionEntry :=
  { value := OptValue.intVal 60
    defaultValue := OptValue.intVal 60
    validator := nonNegIntValidator
    description := "maximum number of rows shown" }

/-- Concrete one-option registry used in witnesses. -/
def demoRegistry : Registry :=
  fun n => if n = "display.max_rows" then some maxRowsEntry else none

/-! ## Scoped overrides (`option_context` / `scoped_override`) -/

/-- Modelled from the spec: on entry `scoped_override` validates and applies
all overrides in order, pushing an `OptionContextFrame` that records, for
each applied override, the prior value of the option.  The frame list is in
application order (head = first applied). -/
def apply_overrides (reg : Registry) :
    List (String × OptValue) → Except OptErr (Registry × List (String × OptValue))
  | [] => Except.ok (reg, [])
  | (n, v) :: rest =>
    match get_option reg n with
    | Except.error e => Except.error e
    | Except.ok prior =>
      match setOption reg n v with
      | Except.error e => Except.error e
      | Except.ok reg1 =>
        match apply_overrides reg1 rest with
        | Except.error e => Except.error e
        | Except.ok (reg2, frame) => Except.ok (reg2, (n, prior) :: frame)

/-- Restore one recorded prior value: the current entry for the name keeps
its validator and default, only its stored value is put back. -/
def restore_value (reg : Registry) (n : String) (v : OptValue) : Registry :=
  fun m =>
    if m = n then
      match reg n with
      | some e => some { e with value := v }
      | none => none
    else reg m

/-- Modelled from the spec: on exit the frame's recorded prior values are
restored in reverse application order (the first-applied override is
restored last). -/
def restore_frame (reg : Registry) : List (String × OptValue) → Registry
  | [] => reg
  | (n, v) :: rest => restore_value (restore_frame reg rest) n v

/-- A step of the scoped body: the body may set options through the
registry's own interface or raise a failure. -/
inductive BodyStep
  | doSet (n : String) (v : OptValue)
  | raiseErr

/-- Run the scoped body: `doSet` goes through `setOption` (a failing set
raises, keeping the registry state reached so far); `raiseErr` aborts the
body.  Returns the registry at exit together with whether the body raised. -/
def run_body (reg : Registry) : List BodyStep → Registry × Bool
  | [] => (reg, false)
  | BodyStep.raiseErr :: _ => (reg, true)
  | BodyStep.doSet n v :: rest =>
    match setOption reg n v with
    | Except.ok reg1 => run_body reg1 rest
    | Except.error _ => (reg, true)

/-- Modelled from the spec: `scoped_override(overrides)` applies the
overrides, runs the body, and on every exit — normal or raised — restores
the recorded prior values in reverse application order.  The Bool in the
result reports whether the body raised. -/
def option_context (reg : Registry) (overrides : List (String × OptValue))
    (body : List BodyStep) : Except OptErr (Registry × Bool) :=
  match apply_overrides reg overrides with
  | Except.error e => Except.error e
  | Except.ok (reg1, frame) =>
    let res := run_body reg1 body
    Except.ok (restore_frame res.1 frame, res.2)

/-! ## Device Memory Manager: pool generations and reinitialization hooks -/

/-- A handle returned by `allocate`: its identity and the pool generation it
was allocated under. -/
structure Handle where
  hid : Nat
  hgen : Nat
deriving DecidableEq, Repr

/-- One live allocation of the current pool. -/
structure Allocation where
  handle : Handle
  client : Nat
  size : Nat
deriving DecidableEq, Repr

/-- Modelled from the spec: a `ReinitHook` is an opaque callback identity
plus an invocation outcome — `none` when the callback succeeds, `some msg`
when it fails. -/
structure ReinitHook where
  hookName : String
  outcome : Option String
deriving DecidableEq, Repr

/-- Errors of the Device Memory Manager. -/
inductive MMErr
  | outOfMemory
  | invalidHandle
deriving DecidableEq, Repr

/-- Modelled from the spec: the Device Memory Manager state — the single
pool (capacity, shared usage counter, allocation set, generation counter)
plus the process-wide Reinitialization Hook Registry in registration
order. -/
structure MMState where
  generation : Nat
  nextHandle : Nat
  capacity : Nat
  capacityUsed : Nat
  live : List Allocation
  hooks : List ReinitHook
deriving DecidableEq, Repr

/-- Modelled from the spec: `allocate(size)` reserves `size` bytes from the
single current pool (one shared capacity counter for all clients) and fails
with `OutOfMemory` when the pool cannot satisfy the request. -/
def allocate (st : MMState) (client : Nat) (size : Nat) :
    Except MMErr (MMState × Handle) :=
  if st.capacityUsed + size ≤ st.capacity then
    let h : Handle := { hid := st.nextHandle, hgen := st.generation }
    Except.ok
      ({ st with
          nextHandle := st.nextHandle + 1
          capacityUsed := st.capacityUsed + size
          live := { handle := h, client := client, size := size } :: st.live },
        h)
  else Except.error MMErr.outOfMemory

/-- Modelled from the spec: `free(handle)` fails with `InvalidHandle` if the
handle does not belong to the current pool generation (stale handle after a
pool reinitialization) or is not live; otherwise it releases the region. -/
def free (st : MMState) (h : Handle) : Except MMErr MMState :=
  if h.hgen = st.generation then
    match st.live.find? (fun a => a.handle == h) with
    | some a =>
        Except.ok
          { st with
              live := st.live.filter (fun b => !(b.handle == h))
              capacityUsed := st.capacityUsed - a.size }
    | none => Except.error MMErr.invalidHandle
  else Except.error MMErr.invalidHandle

/-- Modelled from the spec: `invoke_all()` invokes every registered callback
in registration order; a callback that fails does not abort the remaining
invocations — each failure is collected.  Returns the invocation trace (in
order) and the collected failures. -/
def invoke_all (hooks : List ReinitHook) :
    List String × List (String × String) :=
  match hooks with
  | [] => ([], [])
  | h :: rest =>
    let res := invoke_all rest
    match h.outcome with
    | some msg => (h.hookName :: res.1, (h.hookName, msg) :: res.2)
    | none => (h.hookName :: res.1, res.2)

/-- Modelled from the spec: `reinitialize(new_config)` atomically replaces
the pool with a new one built from the config, increments the generation
counter (invalidating all outstanding handles), then invokes every hook,
synchronously, in registration order, and surfaces the collected failures —
if any — to the caller as a single aggregate `HookFailure`. -/
def pool_reinit (st : MMState) (newCapacity : Nat) :
    MMState × List String × Option (List (String × String)) :=
  let st1 : MMState :=
    { st with
        generation := st.generation + 1
        nextHandle := 0
        capacity := newCapacity
        capacityUsed := 0
        live := [] }
  let res := invoke_all st.hooks
  (st1, res.1, if res.2.isEmpty then none else some res.2)

/-! ## Allocator adapters: one shared pool across client subsystems -/

/-- Modelled from the spec: an `AllocatorBinding` associates a client
subsystem with the (single) pool, recording the pool generation it points
at. -/
structure AllocatorBinding where
  client : Nat
  poolGen : Nat
deriving DecidableEq, Repr

/-- Process state: the single Device Memory Manager (at most one active
`MemoryPool` per process, by construction) plus the installed adapter
bindings (`cuda.set_memory_manager` / `cupy.cuda.set_allocator`). -/
structure ProcessState where
  mm : MMState
  bindings : List AllocatorBinding
deriving DecidableEq, Repr

/-- Operations observable at process level. -/
inductive POp
  | bindClient (client : Nat)
  | allocOp (client : Nat) (size : Nat)
  | freeOp (h : Handle)
  | reinitOp (cfg : Nat)
deriving DecidableEq, Repr

/-- Modelled from the spec: `bind(client, manager)` installs the manager as
the allocation backend for the named client (idempotent per client —
re-binding replaces the binding); allocation and free route through the one
shared manager; `reinitialize` swaps the pool and re-points every binding at
the new generation (the manager installs itself as the backing allocator
for every registered adapter). -/
def pstep (ps : ProcessState) : POp → ProcessState
  | POp.bindClient c =>
      { ps with
          bindings :=
            { client := c, poolGen := ps.mm.generation } ::
              ps.bindings.filter (fun b => !(b.client == c)) }
  | POp.allocOp c s =>
      match allocate ps.mm c s with
      | Except.ok res => { ps with mm := res.1 }
      | Except.error _ => ps
  | POp.freeOp h =>
      match free ps.mm h with
      | Except.ok mm1 => { ps with mm := mm1 }
      | Except.error _ => ps
  | POp.reinitOp cfg =>
      let mm1 := (pool_reinit ps.mm cfg).1
      { mm := mm1
        bindings := ps.bindings.map (fun b => { b with poolGen := mm1.generation }) }

/-- Run a sequence of process operations. -/
def prun (ps : ProcessState) : List POp → ProcessState
  | [] => ps
  | op :: rest => prun (pstep ps op) rest

/-- The initial process state: one fresh pool, no bindings. -/
def initProcess (cap : Nat) : ProcessState :=
  { mm :=
      { generation := 0, nextHandle := 0, capacity := cap, capacityUsed := 0
        live := [], hooks := [] }
    bindings := [] }

/-- The invariant of the spec's data model: every `AllocatorBinding` points
at the current pool's generation. -/
def bindings_current (ps : ProcessState) : Prop :=
  ∀ b ∈ ps.bindings, b.poolGen = ps.mm.generation

/-! ## Module initialization sequence of `python/cudf/cudf/__init__.py` -/

/-- One top-level initialization action of the module, in source order. -/
inductive InitStep
  | importOther (name : String)
  | setupNumba
  | validateSetupStep
  | importRuntime
  | setNumbaMemoryManager
  | setCupyAllocator
  | registerHook (name : String)
  | setVersion (v : String)
  | setAllList (names : List String)
deriving DecidableEq, Repr

/-- Observable state produced by running the initialization sequence.
`latchedFlag` models the read-once semantics of the compatibility flag: the
compute runtime latches the flag's value at its first touch and setting the
flag afterwards has no effect. -/
structure InitState where
  mvcFlagSet : Bool
  runtimeStarted : Bool
  latchedFlag : Option Bool
  gateRan : Bool
  numbaManagerInstalled : Bool
  cupyAllocatorInstalled : Bool
  registeredHooks : List String
  version : Option String
  allList : Option (List String)
deriving DecidableEq, Repr

/-- Modelled from the spec for the flag semantics (set process-wide flags;
read once at the runtime's first use), from the source for everything else:
the effect of one initialization step. -/
def istep (s : InitState) : InitStep → InitState
  | InitStep.importOther _ => s
  | InitStep.setupNumba => { s with mvcFlagSet := true }
  | InitStep.validateSetupStep => { s with gateRan := true }
  | InitStep.importRuntime =>
      if s.runtimeStarted then s
      else { s with runtimeStarted := true, latchedFlag := some s.mvcFlagSet }
  | InitStep.setNumbaMemoryManager => { s with numbaManagerInstalled := true }
  | InitStep.setCupyAllocator => { s with cupyAllocatorInstalled := true }
  | InitStep.registerHook n =>
      { s with registeredHooks := s.registeredHooks ++ [n] }
  | InitStep.setVersion v => { s with version := some v }
  | InitStep.setAllList ns => { s with allList := some ns }

/-- Run an initialization sequence from a state. -/
def irun (s : InitState) : List InitStep → InitState
  | [] => s
  | step :: rest => irun (istep s step) rest

/-- The process-start state: nothing configured yet. -/
def init0 : InitState :=
  { mvcFlagSet := false, runtimeStarted := false, latchedFlag := none
    gateRan := false, numbaManagerInstalled := false
    cupyAllocatorInstalled := false, registeredHooks := []
    version := none, allList := none }

/-- The `__all__` list of `python/cudf/cudf/__init__.py`, transcribed from
the source. -/
def cudf_all : List String :=
  ["BaseIndex", "CategoricalDtype", "CategoricalIndex", "DataFrame",
   "DateOffset", "DatetimeIndex", "Decimal32Dtype", "Decimal64Dtype",
   "Float32Index", "Float64Index", "GenericIndex", "Grouper", "Index",
   "Int16Index", "Int32Index", "Int64Index", "Int8Index", "IntervalDtype",
   "IntervalIndex", "ListDtype", "MultiIndex", "NA", "NaT", "RangeIndex",
   "Scalar", "Series", "StringIndex", "StructDtype", "TimedeltaIndex",
   "UInt16Index", "UInt32Index", "UInt64Index", "UInt8Index", "api",
   "concat", "crosstab", "cut", "date_range", "describe_option", "factorize",
   "from_dataframe", "from_dlpack", "from_pandas", "get_dummies",
   "get_option", "interval_range", "isclose", "melt", "merge", "pivot",
   "pivot_table", "read_avro", "read_csv", "read_feather", "read_hdf",
   "read_json", "read_orc", "read_parquet", "read_text", "set_option",
   "testing", "to_datetime", "to_numeric", "unstack"]

/-- Every name bound in the module namespace by the time initialization
completes, transcribed from the import statements and assignments of
`python/cudf/cudf/__init__.py`. -/
def cudf_module_bindings : List String :=
  ["_setup_numba", "validate_setup", "cupy", "numba_config", "cuda", "rmm",
   "rmm_cupy_allocator", "RMMNumbaManager", "api", "core", "datasets",
   "testing", "register_dataframe_accessor", "register_index_accessor",
   "register_series_accessor", "dtype", "factorize", "cut", "DataFrame",
   "from_dataframe", "from_pandas", "merge", "CategoricalDtype",
   "Decimal32Dtype", "Decimal64Dtype", "Decimal128Dtype", "IntervalDtype",
   "ListDtype", "StructDtype", "Grouper", "BaseIndex", "CategoricalIndex",
   "DatetimeIndex", "Float32Index", "Float64Index", "GenericIndex", "Index",
   "Int8Index", "Int16Index", "Int32Index", "Int64Index", "IntervalIndex",
   "RangeIndex", "StringIndex", "TimedeltaIndex", "UInt8Index",
   "UInt16Index", "UInt32Index", "UInt64Index", "interval_range", "NA",
   "NaT", "MultiIndex", "concat", "crosstab", "get_dummies", "melt",
   "pivot", "pivot_table", "unstack", "Scalar", "Series", "isclose",
   "DateOffset", "date_range", "to_datetime", "to_numeric", "from_dlpack",
   "read_avro", "read_csv", "read_feather", "read_hdf", "read_json",
   "read_orc", "read_parquet", "read_text", "describe_option", "get_option",
   "option_context", "set_option", "clear_cache", "__version__",
   "__all__"]

/-- The top-level statement sequence of `python/cudf/cudf/__init__.py`,
transcribed in source order.  The `import cupy` / `from numba import
config, cuda` pair is the first touch of the compute runtime
(`importRuntime`); the source comment requires `_setup_numba()` to run
before it. -/
def cudf_init_steps : List InitStep :=
  [InitStep.importOther "cudf.utils._numba",
   InitStep.importOther "cudf.utils.gpu_utils",
   InitStep.setupNumba,
   InitStep.validateSetupStep,
   InitStep.importRuntime,
   InitStep.importOther "rmm",
   InitStep.importOther "rmm.allocators.cupy",
   InitStep.importOther "rmm.allocators.numba",
   InitStep.importOther "cudf.api",
   InitStep.importOther "cudf.core",
   InitStep.importOther "cudf.datasets",
   InitStep.importOther "cudf.testing",
   InitStep.importOther "cudf.io",
   InitStep.importOther "cudf.options",
   InitStep.importOther "cudf.utils.utils",
   InitStep.setNumbaMemoryManager,
   InitStep.setCupyAllocator,
   InitStep.registerHook "clear_cache",
   InitStep.setVersion "23.12.00",
   InitStep.setAllList cudf_all]

/-- Errors of the runtime compatibility gate. -/
inductive SetupErr
  | setupError (remediation : String)
deriving DecidableEq, Repr

/-- Modelled from the spec: `validate_setup()` inspects the installed driver
and compute-runtime versions; on a compatible combination it returns
normally with no side effect, on a known-incompatible combination it fails
with a `SetupError` describing the required remediation (version pinning).
The compatibility table itself lives outside the analyzed surface and is a
parameter. -/
def validate_setup (driverVersion runtimeVersion : Nat)
    (compatible : Nat → Nat → Bool) : Except SetupErr Unit :=
  if compatible driverVersion runtimeVersion then Except.ok ()
  else
    Except.error (SetupErr.setupError
      ("driver " ++ toString driverVersion ++ " is incompatible with runtime "
        ++ toString runtimeVersion ++ "; pin a compatible version pair"))

/-! ## Theorems -/

theorem setOption_ok_elim {reg : Registry} {name : String} {v : OptValue}
    {reg1 : Registry} (h : setOption reg name v = Except.ok reg1) :
    ∃ e, reg name = some e ∧ e.validator v = true ∧
      reg1 = fun m => if m = name then some { e with value := v } else reg m := by
  unfold setOption at h
  cases he : reg name with
  | none => rw [he] at h; exact absurd h (by simp)
  | some e =>
      rw [he] at h
      by_cases hv : e.validator v = true
      · refine ⟨e, rfl, hv, ?_⟩
        simp only [hv, if_true] at h
        exact (Except.ok.inj h).symm
      · simp only [hv, if_false] at h
        exact absurd h (by simp)

theorem setOption_domain {reg : Registry} {name : String} {v : OptValue}
    {reg1 : Registry} (h : setOption reg name v = Except.ok reg1) :
    ∀ m, (reg1 m).isSome = (reg m).isSome := by
  obtain ⟨e, he, _, hreg⟩ := setOption_ok_elim h
  intro m
  subst hreg
  by_cases hm : m = name
  · subst hm; simp [he]
  · simp [hm]

theorem setOption_other {reg : Registry} {name : String} {v : OptValue}
    {reg1 : Registry} (h : setOption reg name v = Except.ok reg1) :
    ∀ m, m ≠ name → reg1 m = reg m := by
  obtain ⟨e, he, _, hreg⟩ := setOption_ok_elim h
  intro m hm
  subst hreg
  simp [hm]

/-- C4: for every registered option name and every value passing that
option's validator, `set(name, v)` succeeds, and `get(name)` on the updated
registry returns `v`; the new value is stored in the process-wide registry,
so it is what every subsequent `get` call observes, and no other option is
affected. -/
theorem set_then_get (reg : Registry) (name : String) (v : OptValue)
    (e : OptionEntry) (he : reg name = some e) (hv : e.validator v = true) :
    ∃ reg1, setOption reg name v = Except.ok reg1 ∧
      get_option reg1 name = Except.ok v ∧
      ∀ m, m ≠ name → reg1 m = reg m := by
  refine ⟨fun m => if m = name then some { e with value := v } else reg m, ?_, ?_, ?_⟩
  · unfold setOption
    rw [he]
    simp [hv]
  · unfold get_option
    simp
  · intro m hm
    simp [hm]

/-- Witness for C4 at the concrete `display.max_rows` registry. -/
theorem set_then_get_witness :
    ∃ reg1, setOption demoRegistry "display.max_rows" (OptValue.intVal 5) = Except.ok reg1 ∧
      get_option reg1 "display.max_rows" = Except.ok (OptValue.intVal 5) ∧
      ∀ m, m ≠ "display.max_rows" → reg1 m = demoRegistry m :=
  set_then_get demoRegistry "display.max_rows" (OptValue.intVal 5) maxRowsEntry
    (by rfl) (by rfl)

/-- C5: for every registered option name and every candidate value the
entry's validator rejects, `set(name, value)` surfaces a `ValidationError`
to the caller and leaves the stored registry unchanged. -/
theorem setOption_rejects (reg : Registry) (name : String) (v : OptValue)
    (e : OptionEntry) (he : reg name = some e) (hv : e.validator v = false) :
    setOptionState reg name v = (reg, some (OptErr.validationError name)) := by
  unfold setOptionState setOption
  rw [he]
  simp [hv]

/-- Witness for C5: the spec's scenario `set("display.max_rows", -1)` under
the non-negative-integer validator fails with `ValidationError` and the
registry is returned unchanged. -/
theorem setOption_rejects_witness :
    setOptionState demoRegistry "display.max_rows" (OptValue.intVal (-1)) =
      (demoRegistry, some (OptErr.validationError "display.max_rows")) :=
  setOption_rejects demoRegistry "display.max_rows" (OptValue.intVal (-1))
    maxRowsEntry (by rfl) (by rfl)

theorem apply_overrides_domain {reg : Registry}
    {ov : List (String × OptValue)} {reg1 : Registry}
    {frame : List (String × OptValue)}
    (h : apply_overrides reg ov = Except.ok (reg1, frame)) :
    ∀ m, (reg1 m).isSome = (reg m).isSome := by
  induction ov generalizing reg frame with
  | nil =>
      unfold apply_overrides at h
      obtain ⟨h1, _⟩ := Prod.mk.inj (Except.ok.inj h)
      intro m; rw [h1]
  | cons p rest ih =>
      obtain ⟨n, v⟩ := p
      unfold apply_overrides at h
      split at h
      · simp at h
      split at h
      · simp at h
      split at h
      · simp at h
      rename_i x1 prior hg x2 regA hs x3 regB frameB ha
      obtain ⟨h1, _⟩ := Prod.mk.inj (Except.ok.inj h)
      subst h1
      intro m
      rw [ih ha m, setOption_domain hs m]

theorem run_body_domain {reg : Registry} {body : List BodyStep}
    : ∀ m, ((run_body reg body).1 m).isSome = (reg m).isSome := by
  induction body generalizing reg with
  | nil => intro m; rfl
  | cons step rest ih =>
      cases step with
      | raiseErr => intro m; rfl
      | doSet n v =>
          intro m
          unfold run_body
          cases hs : setOption reg n v with
          | ok reg1 => rw [ih m, setOption_domain hs m]
          | error e => rfl

theorem restore_frame_spec (frame : List (String × OptValue)) (reg : Registry)
    (n : String) :
    restore_frame reg frame n =
      (reg n).map (fun e =>
        { e with value := ((frame.lookup n).getD e.value) }) := by
  induction frame generalizing reg with
  | nil =>
      cases h : reg n <;> simp [restore_frame, List.lookup, h]
  | cons p rest ih =>
      obtain ⟨m, w⟩ := p
      by_cases hm : n = m
      · subst hm
        simp only [restore_frame, restore_value, if_pos rfl, ih]
        cases h : reg n <;> simp [List.lookup, h]
      · have hne : (n == m) = false := beq_eq_false_iff_ne.mpr hm
        simp only [restore_frame, restore_value, if_neg hm, List.lookup, hne, ih]

theorem apply_overrides_first_prior {ov : List (String × OptValue)}
    {reg reg1 : Registry} {frame : List (String × OptValue)} {n : String}
    (h : apply_overrides reg ov = Except.ok (reg1, frame))
    (hn : n ∈ ov.map Prod.fst) :
    ∃ e, reg n = some e ∧ frame.lookup n = some e.value := by
  induction ov generalizing reg frame with
  | nil => simp at hn
  | cons p rest ih =>
      obtain ⟨m, v⟩ := p
      unfold apply_overrides at h
      split at h
      · simp at h
      split at h
      · simp at h
      split at h
      · simp at h
      rename_i x1 prior hg x2 regA hs x3 regB frameB ha
      obtain ⟨h1, h2⟩ := Prod.mk.inj (Except.ok.inj h)
      subst h1
      subst h2
      by_cases hnm : n = m
      · subst hnm
        unfold get_option at hg
        cases he : reg n with
        | none => rw [he] at hg; exact absurd hg (by simp)
        | some e =>
            rw [he] at hg
            refine ⟨e, rfl, ?_⟩
            have hpe : prior = e.value := (Except.ok.inj hg).symm
            subst hpe
            simp [List.lookup]
      · have hn' : n ∈ rest.map Prod.fst := by
          rcases List.mem_map.mp hn with ⟨q, hq, hfst⟩
          rcases List.mem_cons.mp hq with hq1 | hq2
          · rw [hq1] at hfst
            exact absurd hfst.symm hnm
          · exact List.mem_map.mpr ⟨q, hq2, hfst⟩
        obtain ⟨e, heA, hlk⟩ := ih ha hn'
        have heq : regA n = reg n := setOption_other hs n hnm
        have hne : (n == m) = false := beq_eq_false_iff_ne.mpr hnm
        refine ⟨e, by rw [← heq]; exact heA, ?_⟩
        simp [List.lookup, hne, hlk]

/-- C3: for every mapping of valid option names to values, once
`scoped_override` has applied the overrides on entry, every exit of the
scope — normal (`raised = false`) or by a raised failure in the body
(`raised = true`) — restores each recorded prior value in reverse
application order, so that after exit `get(name)` returns the pre-scope
value for every overridden name. -/
theorem option_context_restores (reg : Registry)
    (overrides : List (String × OptValue)) (body : List BodyStep)
    (regF : Registry) (raised : Bool) (n : String)
    (h : option_context reg overrides body = Except.ok (regF, raised))
    (hn : n ∈ overrides.map Prod.fst) :
    get_option regF n = get_option reg n := by
  unfold option_context at h
  split at h
  · simp at h
  rename_i pr2 reg1 frame ha
  obtain ⟨h1, _⟩ := Prod.mk.inj (Except.ok.inj h)
  obtain ⟨e, he, hlk⟩ := apply_overrides_first_prior ha hn
  set reg2 := (run_body reg1 body).1 with hreg2
  have hdom2 : (reg2 n).isSome = (reg n).isSome := by
    rw [hreg2, run_body_domain n, apply_overrides_domain ha n]
  have hsome : ∃ e2, reg2 n = some e2 := by
    rw [he] at hdom2
    cases h2 : reg2 n with
    | none => rw [h2] at hdom2; simp at hdom2
    | some e2 => exact ⟨e2, rfl⟩
  obtain ⟨e2, he2⟩ := hsome
  have hres : restore_frame reg2 frame n = some { e2 with value := e.value } := by
    rw [restore_frame_spec, he2, hlk]
    rfl
  rw [← h1]
  unfold get_option
  rw [hres, he]

/-- Witness for C3: a one-option registry, an override of
`display.max_rows`, and a body that sets the option again and then raises;
after the scope exits, `get` returns the pre-scope value. -/
theorem option_context_restores_witness :
    ∃ regF, option_context demoRegistry
        [("display.max_rows", OptValue.intVal 3)]
        [BodyStep.doSet "display.max_rows" (OptValue.intVal 9), BodyStep.raiseErr] =
          Except.ok (regF, true) ∧
      get_option regF "display.max_rows" =
        get_option demoRegistry "display.max_rows" := by
  refine ⟨_, rfl, ?_⟩
  exact option_context_restores demoRegistry
    [("display.max_rows", OptValue.intVal 3)]
    [BodyStep.doSet "display.max_rows" (OptValue.intVal 9), BodyStep.raiseErr]
    _ true "display.max_rows" rfl (by simp)

theorem invoke_all_spec (hooks : List ReinitHook) :
    (invoke_all hooks).1 = hooks.map ReinitHook.hookName ∧
    (invoke_all hooks).2 =
      hooks.filterMap (fun h => h.outcome.map (fun m => (h.hookName, m))) := by
  induction hooks with
  | nil => exact ⟨rfl, rfl⟩
  | cons h rest ih =>
      cases ho : h.outcome with
      | none =>
          refine ⟨?_, ?_⟩ <;>
            simp [invoke_all, ho, ih.1, ih.2, List.filterMap_cons]
      | some msg =>
          refine ⟨?_, ?_⟩ <;>
            simp [invoke_all, ho, ih.1, ih.2, List.filterMap_cons]

/-- C1: every call to `reinitialize` invokes every registered hook exactly
once, synchronously, in registration order (the invocation trace is exactly
the registration-ordered list of hook names, so a failing hook never aborts
the remaining invocations), and after all hooks have run the collected
failures — exactly those of the failing hooks, in order — are surfaced to
the caller as a single aggregate `HookFailure`, or no failure when every
hook succeeded. -/
theorem pool_reinit_invokes_all_hooks (st : MMState) (cfg : Nat) :
    (pool_reinit st cfg).2.1 = st.hooks.map ReinitHook.hookName ∧
    (pool_reinit st cfg).2.2 =
      (if (st.hooks.filterMap
            (fun h => h.outcome.map (fun m => (h.hookName, m)))).isEmpty
        then none
        else some (st.hooks.filterMap
            (fun h => h.outcome.map (fun m => (h.hookName, m))))) := by
  obtain ⟨h1, h2⟩ := invoke_all_spec st.hooks
  constructor
  · exact h1
  · show (if (invoke_all st.hooks).2.isEmpty then none
        else some (invoke_all st.hooks).2) = _
    rw [h2]

/-- C2: every handle outstanding when `reinitialize` begins (allocated under
the then-current or an earlier pool generation) is invalid afterwards: the
generation counter is incremented by exactly 1, `free` on the stale handle
fails with `InvalidHandle`, and `allocate` only ever hands out handles
stamped with the generation current at allocation time. -/
theorem pool_reinit_invalidates (st : MMState) (cfg : Nat) (h : Handle)
    (hh : h.hgen ≤ st.generation) :
    (pool_reinit st cfg).1.generation = st.generation + 1 ∧
    free (pool_reinit st cfg).1 h = Except.error MMErr.invalidHandle ∧
    (∀ st0 c s st1 h1, allocate st0 c s = Except.ok (st1, h1) →
      h1.hgen = st0.generation) := by
  refine ⟨rfl, ?_, ?_⟩
  · unfold free
    have hne : ¬ h.hgen = (pool_reinit st cfg).1.generation := by
      show ¬ h.hgen = st.generation + 1
      omega
    rw [if_neg hne]
  · intro st0 c s st1 h1 halloc
    unfold allocate at halloc
    by_cases hcap : st0.capacityUsed + s ≤ st0.capacity
    · rw [if_pos hcap] at halloc
      obtain ⟨_, hh1⟩ := Prod.mk.inj (Except.ok.inj halloc)
      rw [← hh1]
    · rw [if_neg hcap] at halloc
      exact absurd halloc (by simp)

/-- Witness for C2: allocate one handle at generation 0, reinitialize, and
the stale handle is rejected. -/
theorem pool_reinit_invalidates_witness :
    (pool_reinit
        { generation := 0, nextHandle := 1, capacity := 100, capacityUsed := 10
          live := [{ handle := { hid := 0, hgen := 0 }, client := 7, size := 10 }]
          hooks := [] } 50).1.generation = 0 + 1 ∧
    free (pool_reinit
        { generation := 0, nextHandle := 1, capacity := 100, capacityUsed := 10
          live := [{ handle := { hid := 0, hgen := 0 }, client := 7, size := 10 }]
          hooks := [] } 50).1 { hid := 0, hgen := 0 } =
      Except.error MMErr.invalidHandle ∧
    (∀ st0 c s st1 h1, allocate st0 c s = Except.ok (st1, h1) →
      h1.hgen = st0.generation) :=
  pool_reinit_invalidates
    { generation := 0, nextHandle := 1, capacity := 100, capacityUsed := 10
      live := [{ handle := { hid := 0, hgen := 0 }, client := 7, size := 10 }]
      hooks := [] } 50 { hid := 0, hgen := 0 } (by decide)

theorem allocate_generation {st : MMState} {c s : Nat} {res : MMState × Handle}
    (h : allocate st c s = Except.ok res) : res.1.generation = st.generation := by
  unfold allocate at h
  by_cases hcap : st.capacityUsed + s ≤ st.capacity
  · rw [if_pos hcap] at h
    rw [← Except.ok.inj h]
  · rw [if_neg hcap] at h
    exact absurd h (by simp)

theorem free_generation {st : MMState} {h : Handle} {st1 : MMState}
    (hf : free st h = Except.ok st1) : st1.generation = st.generation := by
  unfold free at hf
  split at hf
  · split at hf
    · rw [← Except.ok.inj hf]
    · exact absurd hf (by simp)
  · exact absurd hf (by simp)

theorem allocate_capacityUsed {st : MMState} {c s : Nat}
    {res : MMState × Handle} (h : allocate st c s = Except.ok res) :
    res.1.capacityUsed = st.capacityUsed + s := by
  unfold allocate at h
  by_cases hcap : st.capacityUsed + s ≤ st.capacity
  · rw [if_pos hcap] at h
    rw [← Except.ok.inj h]
  · rw [if_neg hcap] at h
    exact absurd h (by simp)

theorem pstep_bindings_current {ps : ProcessState} (hps : bindings_current ps)
    (op : POp) : bindings_current (pstep ps op) := by
  cases op with
  | bindClient c =>
      intro b hb
      simp only [pstep] at hb ⊢
      rcases List.mem_cons.mp hb with hb1 | hb2
      · rw [hb1]
      · exact hps b (List.mem_of_mem_filter hb2)
  | allocOp c s =>
      cases ha : allocate ps.mm c s with
      | ok res =>
          intro b hb
          simp only [pstep, ha] at hb ⊢
          rw [allocate_generation ha]
          exact hps b hb
      | error e =>
          intro b hb
          simp only [pstep, ha] at hb ⊢
          exact hps b hb
  | freeOp h =>
      cases hf : free ps.mm h with
      | ok mm1 =>
          intro b hb
          simp only [pstep, hf] at hb ⊢
          rw [free_generation hf]
          exact hps b hb
      | error e =>
          intro b hb
          simp only [pstep, hf] at hb ⊢
          exact hps b hb
  | reinitOp cfg =>
      intro b hb
      simp only [pstep] at hb ⊢
      rcases List.mem_map.mp hb with ⟨b0, _, hb0⟩
      rw [← hb0]

theorem prun_bindings_current {ps : ProcessState} (hps : bindings_current ps)
    (ops : List POp) : bindings_current (prun ps ops) := by
  induction ops generalizing ps with
  | nil => exact hps
  | cons op rest ih => exact ih (pstep_bindings_current hps op)

/-- C8: in every state reachable from process start, every installed
`AllocatorBinding` points at the current pool's generation (there is one
`MMState` — hence at most one active pool — in the process state), and
allocations issued by two distinct bound client subsystems draw from the one
shared capacity counter: after both, the aggregate usage has grown by the
sum of both sizes. -/
theorem shared_pool_invariant (cap : Nat) (ops : List POp) (a b sa sb : Nat)
    (hab : a ≠ b) (res1 : MMState × Handle) (res2 : MMState × Handle)
    (h1 : allocate (prun (initProcess cap) ops).mm a sa = Except.ok res1)
    (h2 : allocate res1.1 b sb = Except.ok res2) :
    res2.1.capacityUsed =
      (prun (initProcess cap) ops).mm.capacityUsed + sa + sb ∧
    bindings_current (prun (initProcess cap) ops) := by
  constructor
  · rw [allocate_capacityUsed h2, allocate_capacityUsed h1]
  · exact prun_bindings_current (fun b hb => absurd hb (List.not_mem_nil b)) ops

/-- Witness for C8: bind clients 1 and 2, then allocate 10 bytes as client 1
and 20 bytes as client 2; usage grows from 0 to 30 on the one shared
counter, and both bindings point at generation 0. -/
theorem shared_pool_invariant_witness :
    ({ generation := 0, nextHandle := 2, capacity := 100, capacityUsed := 30
       live :=
         [{ handle := { hid := 1, hgen := 0 }, client := 2, size := 20 },
          { handle := { hid := 0, hgen := 0 }, client := 1, size := 10 }]
       hooks := [] } : MMState).capacityUsed =
      (prun (initProcess 100) [POp.bindClient 1, POp.bindClient 2]).mm.capacityUsed
        + 10 + 20 ∧
    bindings_current (prun (initProcess 100) [POp.bindClient 1, POp.bindClient 2]) :=
  shared_pool_invariant 100 [POp.bindClient 1, POp.bindClient 2] 1 2 10 20
    (by decide)
    ({ generation := 0, nextHandle := 1, capacity := 100, capacityUsed := 10
       live := [{ handle := { hid := 0, hgen := 0 }, client := 1, size := 10 }]
       hooks := [] }, { hid := 0, hgen := 0 })
    ({ generation := 0, nextHandle := 2, capacity := 100, capacityUsed := 30
       live :=
         [{ handle := { hid := 1, hgen := 0 }, client := 2, size := 20 },
          { handle := { hid := 0, hgen := 0 }, client := 1, size := 10 }]
       hooks := [] }, { hid := 1, hgen := 0 })
    (by rfl) (by rfl)

/-- C6: in the module's initialization sequence `_setup_numba` runs strictly
before the compute runtime is first touched, so the compatibility flag the
runtime latches at its first use is already set (`latchedFlag = some true`);
and under the read-once semantics, once the runtime has started, a later
`setupNumba` step no longer affects the latched value. -/
theorem setup_numba_precedes_runtime (s : InitState)
    (hs : s.runtimeStarted = true) :
    (istep s InitStep.setupNumba).latchedFlag = s.latchedFlag ∧
    (irun init0 cudf_init_steps).latchedFlag = some true ∧
    cudf_init_steps.findIdx (fun st => st == InitStep.setupNumba) <
      cudf_init_steps.findIdx (fun st => st == InitStep.importRuntime) := by
  refine ⟨rfl, by decide, by decide⟩

/-- Witness for C6 at the state reached by the module's own initialization
sequence (where the runtime has started). -/
theorem setup_numba_precedes_runtime_witness :
    (istep (irun init0 cudf_init_steps) InitStep.setupNumba).latchedFlag =
        (irun init0 cudf_init_steps).latchedFlag ∧
      (irun init0 cudf_init_steps).latchedFlag = some true ∧
      cudf_init_steps.findIdx (fun st => st == InitStep.setupNumba) <
        cudf_init_steps.findIdx (fun st => st == InitStep.importRuntime) :=
  setup_numba_precedes_runtime (irun init0 cudf_init_steps) (by decide)

/-- C7: `validate_setup` returns normally (with no side effect — it is a
pure function of the inspected versions) exactly on compatible version
combinations, fails with a remediation-carrying `SetupError` exactly on
known-incompatible ones, and in the module's initialization sequence it runs
before the compute runtime is first touched, hence before any device use. -/
theorem validate_setup_gate (d r : Nat) (compatible : Nat → Nat → Bool) :
    (compatible d r = true → validate_setup d r compatible = Except.ok ()) ∧
    (compatible d r = false →
      ∃ msg, validate_setup d r compatible =
        Except.error (SetupErr.setupError msg)) ∧
    cudf_init_steps.findIdx (fun st => st == InitStep.validateSetupStep) <
      cudf_init_steps.findIdx (fun st => st == InitStep.importRuntime) := by
  refine ⟨?_, ?_, by decide⟩
  · intro hc
    unfold validate_setup
    rw [if_pos hc]
  · intro hc
    refine ⟨"driver " ++ toString d ++ " is incompatible with runtime "
      ++ toString r ++ "; pin a compatible version pair", ?_⟩
    unfold validate_setup
    rw [if_neg (by rw [hc]; exact Bool.false_ne_true)]

/-- Witness for C7: a compatible pair succeeds and an incompatible pair
fails with `SetupError`, via the gate theorem at a concrete version table. -/
theorem validate_setup_gate_witness :
    validate_setup 525 12000 (fun dv rv => decide (dv ≥ 520 ∧ rv ≤ 12040)) =
        Except.ok () ∧
      ∃ msg, validate_setup 450 12050 (fun dv rv => decide (dv ≥ 520 ∧ rv ≤ 12040)) =
        Except.error (SetupErr.setupError msg) :=
  ⟨(validate_setup_gate 525 12000 (fun dv rv => decide (dv ≥ 520 ∧ rv ≤ 12040))).1
      (by decide),
    (validate_setup_gate 450 12050 (fun dv rv => decide (dv ≥ 520 ∧ rv ≤ 12040))).2.1
      (by decide)⟩

/-- C9: module initialization registers exactly one reinitialization hook,
`clear_cache`, exactly once, and only after both allocator adapters
(`cuda.set_memory_manager` and `cupy.cuda.set_allocator`) have been
installed; consequently, for any manager whose hook registry is the one
built by initialization, every pool reinitialization invokes exactly
`clear_cache`. -/
theorem clear_cache_hook_registered (st : MMState) (cfg : Nat)
    (hh : st.hooks.map ReinitHook.hookName =
      (irun init0 cudf_init_steps).registeredHooks) :
    (irun init0 cudf_init_steps).registeredHooks = ["clear_cache"] ∧
    cudf_init_steps.findIdx (fun s => s == InitStep.setNumbaMemoryManager) <
      cudf_init_steps.findIdx (fun s => s == InitStep.registerHook "clear_cache") ∧
    cudf_init_steps.findIdx (fun s => s == InitStep.setCupyAllocator) <
      cudf_init_steps.findIdx (fun s => s == InitStep.registerHook "clear_cache") ∧
    (pool_reinit st cfg).2.1 = ["clear_cache"] := by
  refine ⟨by decide, by decide, by decide, ?_⟩
  have h1 := (invoke_all_spec st.hooks).1
  show (invoke_all st.hooks).1 = ["clear_cache"]
  rw [h1, hh]
  decide

/-- Witness for C9 with a manager holding exactly the hook registered by
module initialization. -/
theorem clear_cache_hook_registered_witness :
    (irun init0 cudf_init_steps).registeredHooks = ["clear_cache"] ∧
    cudf_init_steps.findIdx (fun s => s == InitStep.setNumbaMemoryManager) <
      cudf_init_steps.findIdx (fun s => s == InitStep.registerHook "clear_cache") ∧
    cudf_init_steps.findIdx (fun s => s == InitStep.setCupyAllocator) <
      cudf_init_steps.findIdx (fun s => s == InitStep.registerHook "clear_cache") ∧
    (pool_reinit
        { generation := 0, nextHandle := 0, capacity := 0, capacityUsed := 0
          live := [], hooks := [{ hookName := "clear_cache", outcome := none }] }
        0).2.1 = ["clear_cache"] :=
  clear_cache_hook_registered
    { generation := 0, nextHandle := 0, capacity := 0, capacityUsed := 0
      live := [], hooks := [{ hookName := "clear_cache", outcome := none }] }
    0 (by decide)

/-- C10: after module initialization completes, every name listed in
`__all__` is bound in the module namespace — the advertised public interface
is complete — and `__version__` equals `"23.12.00"`. -/
theorem all_exports_bound :
    (∀ n ∈ (irun init0 cudf_init_steps).allList.getD [],
      n ∈ cudf_module_bindings) ∧
    (irun init0 cudf_init_steps).version = some "23.12.00" ∧
    (irun init0 cudf_init_steps).allList = some cudf_all := by
  refine ⟨?_, by decide, by decide⟩
  decide

/-- Witness for C10: `"DataFrame"`, listed in `__all__`, is bound in the
module namespace. -/
theorem all_exports_bound_witness : "DataFrame" ∈ cudf_module_bindings :=
  all_exports_bound.1 "DataFrame" (by decide)

end Cudf
